import Mathlib

/-!
Verification of the LLM-response acquisition and normalization pipeline of
the `rust-git-cli` repository (files `src/ai/mod.rs`, `src/ai/openai.rs`,
`src/ai/anthropic.rs`).

The Rust code is shallowly embedded: pure Rust functions become Lean
functions; the network is an oracle argument giving the outcome of the k-th
HTTP send; `serde_json` calls on free-form provider text are abstract parser
arguments, while the derived deserializer of `CommitMessage` is embedded
explicitly over a small JSON value type.  Rust `u32` token budgets become
`Nat` with explicit saturation at `2^32 - 1` where the source saturates.
Byte indices into UTF-8 strings are modelled at character granularity
(`List Char`): the source only slices at character boundaries
(`char_indices` positions plus `len_utf8`), so the two views agree.
-/

/-- The bilingual commit-message record, from `struct CommitMessage` in
`src/ai/mod.rs`.  `body`/`body_en` are optional line sequences,
`breaking_change` an optional sentence. -/
structure CommitMessage where
  commit_type : String
  scope : Option String
  description : String
  description_en : String
  body : Option (List String)
  body_en : Option (List String)
  breaking_change : Option String
deriving DecidableEq, Repr

/-- One loop iteration of the bilingual body rendering in
`CommitMessage::format_conventional` (`src/ai/mod.rs` lines 93-111):
the Chinese line (followed by a newline) when index `i` is in range, then
the English line when in range, else the `[Translation needed]` placeholder
when a Chinese line exists at `i`. -/
def bodyEntry (zh en : List String) (i : Nat) : String :=
  (match zh.get? i with
   | some z => z ++ "\n"
   | none => "") ++
  (match en.get? i with
   | some e => e
   | none => if (zh.get? i).isSome then "[Translation needed]" else "")

/-- `CommitMessage::format_conventional` from `src/ai/mod.rs`:
header `type[(scope)]: description` + newline + `description_en`; a body
section only when BOTH `body` and `body_en` are `Some` and not both empty
(blank line, then the asymmetric zip with a newline between iterations);
then the optional `BREAKING CHANGE` trailer. -/
def CommitMessage.format_conventional (m : CommitMessage) : String :=
  (m.commit_type ++
   (match m.scope with
    | some s => "(" ++ s ++ ")"
    | none => "") ++
   ": " ++ m.description ++ "\n" ++ m.description_en) ++
  (match m.body, m.body_en with
   | some zh, some en =>
     if zh ≠ [] ∨ en ≠ [] then
       "\n\n" ++
       String.join ((List.range (max zh.length en.length)).map
         (fun i => (if 0 < i then "\n" else "") ++ bodyEntry zh en i))
     else ""
   | _, _ => "") ++
  (match m.breaking_change with
   | some b => "\n\n" ++ "BREAKING CHANGE: " ++ b
   | none => "")

/-- A concrete message exercising the asymmetric body zip:
`body = ["a","b"]`, `body_en = ["x"]`. -/
def msgAsymZip : CommitMessage :=
  { commit_type := "feat"
    scope := none
    description := "d"
    description_en := "de"
    body := some ["a", "b"]
    body_en := some ["x"]
    breaking_change := none }

/-- A message with a non-empty Chinese body but no English body at all. -/
def msgNoEnBody : CommitMessage :=
  { commit_type := "feat"
    scope := none
    description := "d"
    description_en := "de"
    body := some ["zzz"]
    body_en := none
    breaking_change := none }

/-- Boolean prefix test on character lists. -/
def hasPrefixL : List Char → List Char → Bool
  | [], _ => true
  | _ :: _, [] => false
  | a :: as, b :: bs => if a = b then hasPrefixL as bs else false

/-- Boolean substring test on character lists: `needle` occurs contiguously
inside the second argument. -/
def hasInfixL (needle : List Char) : List Char → Bool
  | [] => hasPrefixL needle []
  | hay@(_ :: rest) => hasPrefixL needle hay || hasInfixL needle rest

/-- The header rendered by `format_conventional`:
`type[(scope)]: description` then `description_en` on the next line. -/
def headerOf (m : CommitMessage) : String :=
  m.commit_type ++
  (match m.scope with
   | some s => "(" ++ s ++ ")"
   | none => "") ++
  ": " ++ m.description ++ "\n" ++ m.description_en

/-- The `BREAKING CHANGE` trailer rendered by `format_conventional`. -/
def breakingOf (m : CommitMessage) : String :=
  match m.breaking_change with
  | some b => "\n\n" ++ "BREAKING CHANGE: " ++ b
  | none => ""

/-- Join a list of rendered body entries with a newline between consecutive
entries (no leading or trailing separator). -/
def sepJoin : List String → String
  | [] => ""
  | [x] => x
  | x :: y :: xs => x ++ "\n" ++ sepJoin (y :: xs)

/-- The asymmetric-zip body section described by the spec: the entries for
`i` in `0..max(len zh, len en)`, newline-separated. -/
def bodySection (zh en : List String) : String :=
  sepJoin ((List.range (max zh.length en.length)).map (bodyEntry zh en))

theorem string_join_cons (a : String) (l : List String) :
    String.join (a :: l) = a ++ String.join l := by
  apply String.ext
  simp [String.join_eq]

theorem string_join_append_single (l : List String) (x : String) :
    String.join (l ++ [x]) = String.join l ++ x := by
  apply String.ext
  simp [String.join_eq]

theorem sepJoin_append_single (l : List String) (x : String) (h : l ≠ []) :
    sepJoin (l ++ [x]) = sepJoin l ++ "\n" ++ x := by
  induction l with
  | nil => exact absurd rfl h
  | cons a l ih =>
    cases l with
    | nil => simp [sepJoin]
    | cons b l' =>
      have h2 : sepJoin ((a :: b :: l') ++ [x]) = a ++ "\n" ++ sepJoin ((b :: l') ++ [x]) := by
        simp only [List.cons_append]
        rfl
      rw [h2, ih (by simp)]
      show a ++ "\n" ++ (sepJoin (b :: l') ++ "\n" ++ x) =
        (a ++ "\n" ++ sepJoin (b :: l')) ++ "\n" ++ x
      simp [String.append_assoc]

theorem joinSep_eq_sepJoin (f : Nat → String) (n : Nat) :
    String.join ((List.range n).map (fun i => (if 0 < i then "\n" else "") ++ f i)) =
      sepJoin ((List.range n).map f) := by
  induction n with
  | zero => rfl
  | succ n ih =>
    rw [List.range_succ]
    simp only [List.map_append, List.map_cons, List.map_nil]
    rw [string_join_append_single, ih]
    cases n with
    | zero => simp [sepJoin]
    | succ m =>
      rw [sepJoin_append_single _ _ (by simp)]
      simp [String.append_assoc]

/-- C6: with `body = ["a","b"]` and `body_en = ["x"]` the rendered message is
the header followed by the body section `a\nx\nb\n[Translation needed]`:
the unmatched Chinese line gets the literal placeholder, it is neither
dropped nor strictly pair-zipped. -/
theorem c6_asymmetric_zip_concrete :
    msgAsymZip.format_conventional = "feat: d\nde\n\na\nx\nb\n[Translation needed]" := by
  decide

/-- C7 counterexample: a message with a non-empty Chinese body but
`body_en = none` renders as the bare header — no body section is emitted and
the Chinese line `a` does not appear in the output at all, refuting the
claim that a present non-empty `body` alone forces a body section. -/
theorem c7_counterexample :
    msgNoEnBody.format_conventional = "feat: d\nde" ∧
      hasInfixL ("zzz".toList) (msgNoEnBody.format_conventional.toList) = false := by
  constructor
  · decide
  · decide

/-- C7 amended: the body section is emitted only when BOTH `body` and
`body_en` are present and not both empty; in that case the output is the
header, a blank line, the newline-separated asymmetric zip over
`0..max(len body, len body_en)` (with the `[Translation needed]` placeholder
for missing English lines), then the breaking-change trailer.  When
`body_en` is absent the body section is omitted entirely. -/
theorem c7_body_section_both_present (m : CommitMessage) (zh en : List String)
    (hzh : m.body = some zh) (hen : m.body_en = some en)
    (hne : zh ≠ [] ∨ en ≠ []) :
    m.format_conventional = headerOf m ++ "\n\n" ++ bodySection zh en ++ breakingOf m := by
  unfold CommitMessage.format_conventional
  simp only [hzh, hen]
  rw [if_pos hne, joinSep_eq_sepJoin]
  simp [headerOf, breakingOf, bodySection, String.append_assoc]

theorem c7_body_section_both_present_witness :
    msgAsymZip.format_conventional =
      headerOf msgAsymZip ++ "\n\n" ++ bodySection ["a", "b"] ["x"] ++ breakingOf msgAsymZip :=
  c7_body_section_both_present msgAsymZip ["a", "b"] ["x"] rfl rfl (Or.inl (by decide))

/-! ## Stream decoder (`parse_streaming_response`, `src/ai/openai.rs` lines 29-62) -/

/-- Remove leading and trailing whitespace characters, as Rust `str::trim`
does (modelled with Lean's `Char.isWhitespace`, which agrees on the ASCII
whitespace the pipeline encounters). -/
def trimChars (cs : List Char) : List Char :=
  ((cs.dropWhile Char.isWhitespace).reverse.dropWhile Char.isWhitespace).reverse

/-- Rust `str::trim` lifted back to `String`. -/
def rustTrim (s : String) : String :=
  String.mk (trimChars s.toList)

/-- One SSE chunk record, from `struct StreamChunk`/`StreamChoice`/
`StreamDelta` in `src/ai/openai.rs`: a list of choices, each carrying an
optional content fragment in its delta. -/
structure StreamChunk where
  choices : List (Option String)
deriving DecidableEq, Repr

/-- The inner choice loop of `parse_streaming_response`: append every
present content fragment of the chunk, in choice order. -/
def chunkContent (c : StreamChunk) : String :=
  String.join (c.choices.map (fun t => t.getD ""))

/-- Lines 34-39 of `parse_streaming_response`: trim the line; when it starts
with the `data: ` sentinel, the payload is what follows the 6-character
prefix (the source's byte-level `strip_prefix` at char granularity). -/
def dataPayload (line : String) : Option String :=
  let t := trimChars line.toList
  if hasPrefixL ("data: ".toList) t then some (String.mk (t.drop 6)) else none

/-- The per-line loop of `parse_streaming_response`, carrying the mutable
`content` buffer and `is_streaming` flag.  `pc` stands for the
`serde_json::from_str::<StreamChunk>` call on the payload (an external
library, modelled abstractly). -/
def streamLoop (pc : String → Option StreamChunk) :
    List String → String → Bool → String × Bool
  | [], content, isStreaming => (content, isStreaming)
  | line :: rest, content, isStreaming =>
    match dataPayload line with
    | none => streamLoop pc rest content isStreaming
    | some data =>
      if data = "[DONE]" then streamLoop pc rest content true
      else
        match pc data with
        | some chunk => streamLoop pc rest (content ++ chunkContent chunk) true
        | none => streamLoop pc rest content true

/-- `parse_streaming_response` over the input's line list: `Some` of the
accumulated buffer when the stream sentinel was seen and the buffer is
non-empty, else `None` ("not a stream"). -/
def parse_streaming_response (pc : String → Option StreamChunk)
    (lines : List String) : Option String :=
  let r := streamLoop pc lines "" false
  if r.2 ∧ r.1 ≠ "" then some r.1 else none

/-- What a single input line contributes to the accumulated buffer: nothing
unless it is a non-`[DONE]` `data: ` line whose payload parses, in which
case its chunk's content fragments. -/
def lineContribution (pc : String → Option StreamChunk) (line : String) : String :=
  match dataPayload line with
  | none => ""
  | some data =>
    if data = "[DONE]" then ""
    else
      match pc data with
      | some chunk => chunkContent chunk
      | none => ""

/-- The concatenation of all chunk content fragments in the order their
source lines appear. -/
def streamJoin (pc : String → Option StreamChunk) (lines : List String) : String :=
  String.join (lines.map (lineContribution pc))

/-- Whether some input line carries the `data: ` sentinel after trimming. -/
def hasDataLine (lines : List String) : Bool :=
  lines.any (fun l => (dataPayload l).isSome)

theorem streamLoop_eq (pc : String → Option StreamChunk) (lines : List String)
    (c : String) (b : Bool) :
    streamLoop pc lines c b = (c ++ streamJoin pc lines, b || hasDataLine lines) := by
  induction lines generalizing c b with
  | nil =>
    have : String.join ([] : List String) = "" := rfl
    simp [streamLoop, streamJoin, hasDataLine, this]
  | cons line rest ih =>
    cases hd : dataPayload line with
    | none =>
      simp [streamLoop, hd, ih, streamJoin, lineContribution, hasDataLine,
        string_join_cons]
    | some data =>
      by_cases hdone : data = "[DONE]"
      · simp [streamLoop, hd, hdone, ih, streamJoin, lineContribution, hasDataLine,
          string_join_cons]
      · cases hpc : pc data with
        | none =>
          simp [streamLoop, hd, hdone, hpc, ih, streamJoin, lineContribution,
            hasDataLine, string_join_cons]
        | some chunk =>
          simp [streamLoop, hd, hdone, hpc, ih, streamJoin, lineContribution,
            hasDataLine, string_join_cons, String.append_assoc]

/-- C4: the stream decoder returns `None` exactly when no line carries the
`data: ` sentinel or the accumulated fragments are empty; otherwise it
returns `Some` of the concatenation of all chunk content fragments in the
order their source lines appear. -/
theorem c4_stream_decoder (pc : String → Option StreamChunk) (lines : List String) :
    parse_streaming_response pc lines =
      if hasDataLine lines ∧ streamJoin pc lines ≠ "" then some (streamJoin pc lines)
      else none := by
  unfold parse_streaming_response
  rw [streamLoop_eq]
  simp

theorem string_join_all_empty (l : List String) (h : ∀ x ∈ l, x = "") :
    String.join l = "" := by
  induction l with
  | nil => rfl
  | cons a l ih =>
    rw [string_join_cons, h a (by simp), ih (fun x hx => h x (by simp [hx]))]
    simp

/-- C10: a `data: ` line (other than `[DONE]`) whose payload fails to parse
as a chunk record is skipped silently; an input consisting solely of such
malformed `data: ` lines yields `None` ("not a stream") rather than an
error. -/
theorem c10_malformed_data_lines (pc : String → Option StreamChunk)
    (lines : List String)
    (h : ∀ l ∈ lines, ∃ d, dataPayload l = some d ∧ d ≠ "[DONE]" ∧ pc d = none) :
    parse_streaming_response pc lines = none := by
  have hj : streamJoin pc lines = "" := by
    apply string_join_all_empty
    intro x hx
    rw [List.mem_map] at hx
    obtain ⟨l, hl, rfl⟩ := hx
    obtain ⟨d, hd, hdone, hpc⟩ := h l hl
    simp [lineContribution, hd, hdone, hpc]
  unfold parse_streaming_response
  rw [streamLoop_eq]
  simp [hj]

theorem c10_malformed_data_lines_witness :
    parse_streaming_response (fun _ => none) ["data: oops"] = none :=
  c10_malformed_data_lines (fun _ => none) ["data: oops"]
    (by
      intro l hl
      simp only [List.mem_singleton] at hl
      subst hl
      exact ⟨"oops", by decide, by decide, rfl⟩)

/-! ## JSON object extraction (brace-depth scan)

Two variants exist in the source: the OpenAI fallback
(`src/ai/openai.rs` lines 264-287) clamps the decrement
(`if depth > 0 { depth -= 1 }`), while the Anthropic fallback
(`src/ai/anthropic.rs` lines 141-162) decrements unconditionally
(`depth -= 1`).  Byte indices of `char_indices` are modelled as character
indices; the source slices only at character boundaries, so the extracted
spans coincide. -/

/-- The brace scan of the OpenAI fallback: on `{` at depth 0 with no start
recorded, record the start; increment depth on `{`; on `}` decrement with a
clamp at zero, and when depth returns to 0 with a start recorded, record the
end (exclusive) and stop.  Returns the recorded span and the depth after
each processed character.  Depth is `Int`, as the source's `i32`. -/
def openaiBraceScan : List Char → Nat → Int → Option Nat → Option (Nat × Nat) × List Int
  | [], _, _, _ => (none, [])
  | c :: rest, idx, depth, startIdx =>
    if c = '{' then
      let startIdx' := if depth = 0 ∧ startIdx = none then some idx else startIdx
      let r := openaiBraceScan rest (idx + 1) (depth + 1) startIdx'
      (r.1, (depth + 1) :: r.2)
    else if c = '}' then
      let depth' := if 0 < depth then depth - 1 else depth
      if depth' = 0 ∧ startIdx.isSome then
        (startIdx.map (fun s => (s, idx + 1)), [depth'])
      else
        let r := openaiBraceScan rest (idx + 1) depth' startIdx
        (r.1, depth' :: r.2)
    else
      let r := openaiBraceScan rest (idx + 1) depth startIdx
      (r.1, depth :: r.2)

/-- The brace scan of the Anthropic fallback: identical except that `}`
decrements the depth unconditionally (`depth -= 1`, no clamp). -/
def anthropicBraceScan : List Char → Nat → Int → Option Nat → Option (Nat × Nat) × List Int
  | [], _, _, _ => (none, [])
  | c :: rest, idx, depth, startIdx =>
    if c = '{' then
      let startIdx' := if depth = 0 ∧ startIdx = none then some idx else startIdx
      let r := anthropicBraceScan rest (idx + 1) (depth + 1) startIdx'
      (r.1, (depth + 1) :: r.2)
    else if c = '}' then
      let depth' := depth - 1
      if depth' = 0 ∧ startIdx.isSome then
        (startIdx.map (fun s => (s, idx + 1)), [depth'])
      else
        let r := anthropicBraceScan rest (idx + 1) depth' startIdx
        (r.1, depth' :: r.2)
    else
      let r := anthropicBraceScan rest (idx + 1) depth startIdx
      (r.1, depth :: r.2)

/-- The balanced-object span the OpenAI fallback extracts, as characters. -/
def openai_extract_json (cs : List Char) : Option (List Char) :=
  match (openaiBraceScan cs 0 0 none).1 with
  | some (s, e) => some ((cs.drop s).take (e - s))
  | none => none

/-- The balanced-object span the Anthropic fallback extracts, as characters. -/
def anthropic_extract_json (cs : List Char) : Option (List Char) :=
  match (anthropicBraceScan cs 0 0 none).1 with
  | some (s, e) => some ((cs.drop s).take (e - s))
  | none => none

/-- The depth values the OpenAI-style scan passes through. -/
def openaiDepthTrace (cs : List Char) : List Int :=
  (openaiBraceScan cs 0 0 none).2

/-- The depth values the Anthropic-style scan passes through. -/
def anthropicDepthTrace (cs : List Char) : List Int :=
  (anthropicBraceScan cs 0 0 none).2

theorem openaiBraceScan_trace_nonneg (cs : List Char) (idx : Nat) (depth : Int)
    (startIdx : Option Nat) (hd : 0 ≤ depth) :
    ∀ d ∈ (openaiBraceScan cs idx depth startIdx).2, 0 ≤ d := by
  induction cs generalizing idx depth startIdx with
  | nil => simp [openaiBraceScan]
  | cons c rest ih =>
    by_cases h1 : c = '{'
    · simp only [openaiBraceScan, if_pos h1]
      intro d hdm
      rcases List.mem_cons.mp hdm with h | h
      · omega
      · exact ih _ _ _ (by omega) d h
    · by_cases h2 : c = '}'
      · simp only [openaiBraceScan, if_neg h1, if_pos h2]
        by_cases h3 : (if 0 < depth then depth - 1 else depth) = 0 ∧ startIdx.isSome
        · rw [if_pos h3]
          intro d hdm
          rcases List.mem_singleton.mp hdm with rfl
          split <;> omega
        · rw [if_neg h3]
          intro d hdm
          rcases List.mem_cons.mp hdm with h | h
          · subst h
            split <;> omega
          · refine ih _ _ _ ?_ d h
            split <;> omega
      · simp only [openaiBraceScan, if_neg h1, if_neg h2]
        intro d hdm
        rcases List.mem_cons.mp hdm with h | h
        · omega
        · exact ih _ _ _ hd d h

/-- C5 counterexample: the Anthropic-style scan is NOT clamped — on the
input `}` its depth counter drops to `-1`, refuting the claim that the
depth stays non-negative in both fallback paths. -/
theorem c5_counterexample :
    anthropicDepthTrace ("\x7d".toList) = [-1] ∧
      ¬ (∀ d ∈ anthropicDepthTrace ("\x7d".toList), 0 ≤ d) := by
  constructor
  · decide
  · decide

/-- C5 amended: the depth clamp holds for the OpenAI-style fallback scan —
its depth counter never becomes negative at any step (a `}` at depth 0
leaves the depth at 0) — while the Anthropic-style scan decrements
unconditionally and can go negative. -/
theorem c5_openai_depth_clamped (cs : List Char) :
    ∀ d ∈ openaiDepthTrace cs, 0 ≤ d :=
  openaiBraceScan_trace_nonneg cs 0 0 none le_rfl

theorem c5_openai_depth_clamped_witness :
    (0 : Int) ∈ openaiDepthTrace ("\x7b\x7d".toList) ∧
      (0 : Int) ≤ 0 :=
  ⟨by decide, c5_openai_depth_clamped ("\x7b\x7d".toList) 0 (by decide)⟩

/-! ## Schema-parse fallback and error chaining

The direct `serde_json::from_str::<CommitMessage>` on free-form provider
text is an external-library call, modelled as an abstract parser `P` that
either succeeds or fails with an error message.  `anyhow` error chains are
modelled as the list of rendered messages, outermost context first, with
the `format!` interpolations made explicit. -/

/-- The chain of error messages mentions `needle`: some rendered message
contains it as a contiguous substring. -/
def Mentions (chain : List String) (needle : String) : Prop :=
  ∃ c ∈ chain, hasInfixL needle.toList c.toList = true

instance (chain : List String) (needle : String) : Decidable (Mentions chain needle) := by
  unfold Mentions
  infer_instance

/-- The parse-or-extract stage of `OpenAIClient::generate_commit_message`
(`src/ai/openai.rs` lines 261-303): direct parse; on failure, brace-scan
extraction and a second parse whose failure is wrapped in a context that
interpolates the primary error; when no span is found, a single error that
interpolates the primary error. -/
def openai_parse_stage (P : String → Except String CommitMessage)
    (cleanContent : String) : Except (List String) CommitMessage :=
  match P cleanContent with
  | .ok msg => .ok msg
  | .error primaryErr =>
    match openai_extract_json cleanContent.toList with
    | some span =>
      match P (String.mk span) with
      | .ok msg => .ok msg
      | .error secondary =>
        .error ["Failed to parse extracted JSON from OpenAI response: " ++ primaryErr,
                secondary]
    | none =>
      .error ["Failed to parse commit message from OpenAI response: " ++ primaryErr]

/-- The parse-or-extract stage of `AnthropicClient::generate_commit_message`
(`src/ai/anthropic.rs` lines 136-172): the direct-parse error is discarded
(`Err(_)`); the extraction-failure context and the no-object error carry
fixed texts with no interpolation of the primary error. -/
def anthropic_parse_stage (P : String → Except String CommitMessage)
    (cleanContent : String) : Except (List String) CommitMessage :=
  match P cleanContent with
  | .ok msg => .ok msg
  | .error _ =>
    match anthropic_extract_json cleanContent.toList with
    | some span =>
      match P (String.mk span) with
      | .ok msg => .ok msg
      | .error secondary =>
        .error ["Failed to parse extracted JSON from Anthropic response", secondary]
    | none =>
      .error ["No valid JSON object found in Anthropic response"]

theorem hasPrefixL_self (l : List Char) : hasPrefixL l l = true := by
  induction l with
  | nil => rfl
  | cons a l ih => simp [hasPrefixL, ih]

theorem hasInfixL_suffix (n p : List Char) : hasInfixL n (p ++ n) = true := by
  induction p with
  | nil =>
    cases n with
    | nil => rfl
    | cons a l => simp [hasInfixL, hasPrefixL_self]
  | cons x p ih => simp [hasInfixL, ih]

theorem string_toList_append (a b : String) : (a ++ b).toList = a.toList ++ b.toList := by
  simp [String.toList, String.data_append]

/-- C9 counterexample: with a direct parser failing with `PRIMARYXYZ` and
content containing no balanced object, the Anthropic-style stage returns
the fixed no-object error, and no message of the chain mentions the
original parse error — the claim fails for the Anthropic-style client. -/
theorem c9_counterexample :
    anthropic_parse_stage (fun _ => .error "PRIMARYXYZ") "no braces here" =
        .error ["No valid JSON object found in Anthropic response"] ∧
      ¬ Mentions ["No valid JSON object found in Anthropic response"] "PRIMARYXYZ" := by
  constructor
  · rfl
  · decide

/-- C9 amended: for the OpenAI-style client the claim holds — whenever the
direct parse fails and the stage as a whole fails (either because the
extracted span fails to parse, or because no balanced object is found), the
resulting error chain mentions the original direct-parse error.  The
Anthropic-style client discards the original error instead. -/
theorem c9_openai_chains_primary (P : String → Except String CommitMessage)
    (content primary : String) (chain : List String)
    (hp : P content = .error primary)
    (hc : openai_parse_stage P content = .error chain) :
    Mentions chain primary := by
  simp only [openai_parse_stage, hp] at hc
  split at hc
  · split at hc
    · exact absurd hc (by simp)
    · simp only [Except.error.injEq] at hc
      subst hc
      refine ⟨"Failed to parse extracted JSON from OpenAI response: " ++ primary, by simp, ?_⟩
      rw [string_toList_append]
      exact hasInfixL_suffix _ _
  · simp only [Except.error.injEq] at hc
    subst hc
    refine ⟨"Failed to parse commit message from OpenAI response: " ++ primary, by simp, ?_⟩
    rw [string_toList_append]
    exact hasInfixL_suffix _ _

theorem c9_openai_chains_primary_witness :
    Mentions ["Failed to parse extracted JSON from OpenAI response: E1", "E1"] "E1" :=
  c9_openai_chains_primary (fun _ => .error "E1") "ab\x7bq\x7dc" "E1"
    ["Failed to parse extracted JSON from OpenAI response: E1", "E1"] rfl (by rfl)

/-! ## Generation orchestration: the bounded retry loop

`OpenAIClient::generate_commit_message` (`src/ai/openai.rs` lines 94-312)
and the single-shot changelog paths.  The network plus response-envelope
decoding (lines 133-203) is an oracle mapping the index of a send to its
outcome: a non-success HTTP status, or message content together with the
provider's `finish_reason`.  The fence-strip/parse/extract tail of a
successful attempt (lines 244-306) is abstracted as `parseStage`. -/

/-- Outcome of one send, after envelope decoding. -/
inductive SendOutcome where
  | httpFailure (status : Nat)
  | ok (content : String) (finishReason : Option String)
deriving DecidableEq, Repr

/-- The fatal outcomes of the generation paths
(the `anyhow::bail!` calls of the loop). -/
inductive GenError where
  | httpError (message : String) (status : Nat)
  | truncatedEmpty
  | truncatedNonEmpty
  | contentFiltered
  | unexpectedFinishReason (reason : String)
  | exhaustedAttempts
  | parseError (chain : List String)
deriving DecidableEq, Repr

/-- Sanitized error text for a non-success status
(`src/ai/openai.rs` lines 147-153). -/
def sanitize_openai_status (status : Nat) : String :=
  if status = 401 then "Authentication failed. Please check your API key."
  else if status = 403 then "Access forbidden. Please check your API permissions."
  else if status = 429 then "Rate limit exceeded. Please try again later."
  else if 500 ≤ status ∧ status ≤ 599 then "OpenAI service error. Please try again later."
  else "Request failed. Please check your configuration."

/-- Sanitized error text for a non-success status
(`src/ai/anthropic.rs` lines 76-82). -/
def sanitize_anthropic_status (status : Nat) : String :=
  if status = 401 then "Authentication failed. Please check your API key."
  else if status = 403 then "Access forbidden. Please check your API permissions."
  else if status = 429 then "Rate limit exceeded. Please try again later."
  else if 500 ≤ status ∧ status ≤ 599 then "Anthropic service error. Please try again later."
  else "Request failed. Please check your configuration."

/-- `let max_attempts = 4;` (`src/ai/openai.rs` line 103). -/
def max_attempts : Nat := 4

/-- `u32::MAX`, the bound of `saturating_mul` on the `u32` token budget. -/
def u32Max : Nat := 4294967295

/-- The token-budget growth on truncation (`src/ai/openai.rs` line 218):
`max_tokens = (max_tokens.saturating_mul(2)).min(4000)`. -/
def nextTokens (t : Nat) : Nat :=
  min (min (t * 2) u32Max) 4000

/-- The attempt loop of `OpenAIClient::generate_commit_message`
(lines 105-311), from attempt index `attempt` with current budget
`maxTokens`.  Returns the result together with the token budget of every
send performed, in order. -/
def openai_commit_go (parseStage : String → Except GenError CommitMessage)
    (oracle : Nat → SendOutcome) (attempt : Nat) (maxTokens : Nat) :
    Except GenError CommitMessage × List Nat :=
  if _h : attempt < max_attempts then
    match oracle attempt with
    | .httpFailure status =>
      (.error (.httpError (sanitize_openai_status status) status), [maxTokens])
    | .ok content finishReason =>
      match finishReason with
      | some reason =>
        if reason = "length" then
          if rustTrim content = "" ∧ attempt + 1 = max_attempts then
            (.error .truncatedEmpty, [maxTokens])
          else if h2 : attempt + 1 < max_attempts then
            let r := openai_commit_go parseStage oracle (attempt + 1) (nextTokens maxTokens)
            (r.1, maxTokens :: r.2)
          else
            (.error .truncatedNonEmpty, [maxTokens])
        else if reason = "content_filter" then
          (.error .contentFiltered, [maxTokens])
        else if reason = "stop" ∨ reason = "stop_sequence" then
          (parseStage content, [maxTokens])
        else
          (.error (.unexpectedFinishReason reason), [maxTokens])
      | none => (parseStage content, [maxTokens])
  else
    (.error .exhaustedAttempts, [])
termination_by max_attempts - attempt
decreasing_by omega

/-- `OpenAIClient::generate_commit_message`: the loop entered at attempt 0
with the configured initial token budget. -/
def openai_generate_commit_message (parseStage : String → Except GenError CommitMessage)
    (oracle : Nat → SendOutcome) (initialMaxTokens : Nat) :
    Except GenError CommitMessage × List Nat :=
  openai_commit_go parseStage oracle 0 initialMaxTokens

theorem openai_commit_go_sends_cons (parseStage : String → Except GenError CommitMessage)
    (oracle : Nat → SendOutcome) (attempt maxTokens : Nat)
    (h : attempt < max_attempts) :
    ∃ rest, (openai_commit_go parseStage oracle attempt maxTokens).2 = maxTokens :: rest := by
  rw [openai_commit_go, dif_pos h]
  rcases oracle attempt with status | ⟨content, finishReason⟩
  · exact ⟨[], rfl⟩
  · rcases finishReason with _ | reason
    · exact ⟨[], rfl⟩
    · by_cases h1 : reason = "length" <;>
        by_cases h2 : rustTrim content = "" ∧ attempt + 1 = max_attempts <;>
        by_cases h3 : attempt + 1 < max_attempts <;>
        by_cases h4 : reason = "content_filter" <;>
        by_cases h5 : reason = "stop" ∨ reason = "stop_sequence" <;>
        simp [h1, h2, h3, h4, h5]

theorem nextTokens_eq_min (t : Nat) : nextTokens t = min (t * 2) 4000 := by
  unfold nextTokens u32Max
  omega

/-- C2: when an attempt ends with `finish_reason=length` and attempts
remain, the token budget of the next send equals
`min(2 × current budget, 4000)`, and in particular never exceeds 4000. -/
theorem c2_retry_budget (parseStage : String → Except GenError CommitMessage)
    (oracle : Nat → SendOutcome) (attempt maxTokens : Nat) (content : String)
    (hor : oracle attempt = .ok content (some "length"))
    (hlt : attempt + 1 < max_attempts) :
    ((openai_commit_go parseStage oracle attempt maxTokens).2).get? 1 =
        some (min (maxTokens * 2) 4000) ∧
      min (maxTokens * 2) 4000 ≤ 4000 := by
  refine ⟨?_, Nat.min_le_right _ _⟩
  have hne : ¬ (rustTrim content = "" ∧ attempt + 1 = max_attempts) := by
    rintro ⟨-, h⟩
    omega
  rw [openai_commit_go, dif_pos (by omega : attempt < max_attempts), hor]
  simp only [if_pos rfl, if_neg hne, dif_pos hlt, if_true]
  rw [nextTokens_eq_min]
  obtain ⟨rest, hrest⟩ :=
    openai_commit_go_sends_cons parseStage oracle (attempt + 1) (nextTokens maxTokens) hlt
  rw [nextTokens_eq_min] at hrest
  simp [hrest]

theorem c2_retry_budget_witness :
    ((openai_commit_go (fun _ => .error .exhaustedAttempts)
        (fun _ => .ok "x" (some "length")) 0 1000).2).get? 1 = some 2000 ∧
      (2000 : Nat) ≤ 4000 := by
  have h := c2_retry_budget (fun _ => .error .exhaustedAttempts)
    (fun _ => .ok "x" (some "length")) 0 1000 "x" rfl (by decide)
  simpa using h

theorem openai_commit_go_all_length (parseStage : String → Except GenError CommitMessage)
    (oracle : Nat → SendOutcome)
    (h : ∀ k, k < max_attempts →
      ∃ c, oracle k = .ok c (some "length") ∧ rustTrim c ≠ "") :
    ∀ n attempt maxTokens, max_attempts - attempt = n → attempt < max_attempts →
      (openai_commit_go parseStage oracle attempt maxTokens).1 = .error .truncatedNonEmpty ∧
        (openai_commit_go parseStage oracle attempt maxTokens).2.length =
          max_attempts - attempt := by
  intro n
  induction n with
  | zero =>
    intro attempt maxTokens hn hlt
    omega
  | succ n ih =>
    intro attempt maxTokens hn hlt
    obtain ⟨c, hoc, hct⟩ := h attempt hlt
    have hne : ¬ (rustTrim c = "" ∧ attempt + 1 = max_attempts) := fun hcon => hct hcon.1
    rw [openai_commit_go, dif_pos hlt, hoc]
    by_cases hlast : attempt + 1 < max_attempts
    · simp only [if_pos rfl, if_neg hne, dif_pos hlast, if_true]
      have hrec := ih (attempt + 1) (nextTokens maxTokens) (by omega) hlast
      refine ⟨hrec.1, ?_⟩
      simp only [List.length_cons, hrec.2]
      omega
    · simp only [if_pos rfl, if_neg hne, dif_neg hlast, if_true]
      refine ⟨trivial, ?_⟩
      simp only [List.length_singleton]
      omega

/-- The bilingual changelog record, from `struct ChangelogCategories` in
`src/ai/mod.rs`. -/
structure ChangelogCategories where
  features : List String
  fixes : List String
  improvements : List String
  others : List String
deriving DecidableEq, Repr

/-- The bilingual changelog record, from `struct ChangelogSummary` in
`src/ai/mod.rs`. -/
structure ChangelogSummary where
  title : String
  title_en : String
  highlights : List String
  highlights_en : List String
  categories : ChangelogCategories
deriving DecidableEq, Repr

/-- `OpenAIClient::generate_changelog` (`src/ai/openai.rs` lines 314-480):
a single request with `max_tokens: self.initial_max_tokens`; the response's
`finish_reason` is never inspected and there is no loop; the
fence-strip/parse/extract tail is abstracted as `parseStage`. -/
def openai_generate_changelog (parseStage : String → Except GenError ChangelogSummary)
    (outcome : SendOutcome) (initialMaxTokens : Nat) :
    Except GenError ChangelogSummary × List Nat :=
  match outcome with
  | .httpFailure status =>
    (.error (.httpError (sanitize_openai_status status) status), [initialMaxTokens])
  | .ok content _finishReason => (parseStage content, [initialMaxTokens])

/-- Outcome of one Anthropic send: its response envelope exposes no
finish reason (`src/ai/anthropic.rs` lines 325-333). -/
inductive AnthropicOutcome where
  | httpFailure (status : Nat)
  | ok (content : String)
deriving DecidableEq, Repr

/-- `AnthropicClient::generate_changelog` (`src/ai/anthropic.rs` lines
177-309): a single request with `max_tokens: self.initial_max_tokens`,
no loop. -/
def anthropic_generate_changelog (parseStage : String → Except GenError ChangelogSummary)
    (outcome : AnthropicOutcome) (initialMaxTokens : Nat) :
    Except GenError ChangelogSummary × List Nat :=
  match outcome with
  | .httpFailure status =>
    (.error (.httpError (sanitize_anthropic_status status) status), [initialMaxTokens])
  | .ok content => (parseStage content, [initialMaxTokens])

/-- C3: for both providers, one changelog-generation call performs exactly
one send, whose token budget is the initial budget, whatever the outcome or
completion signal — there is no truncation-growth loop on the changelog
path. -/
theorem c3_changelog_single_send
    (po pa : String → Except GenError ChangelogSummary)
    (oo : SendOutcome) (oa : AnthropicOutcome) (initialMaxTokens : Nat) :
    (openai_generate_changelog po oo initialMaxTokens).2 = [initialMaxTokens] ∧
      (anthropic_generate_changelog pa oa initialMaxTokens).2 = [initialMaxTokens] := by
  constructor
  · cases oo <;> rfl
  · cases oa <;> rfl

/-- C1: when every attempt's response carries `finish_reason=length` with
non-empty (post-trim) content, commit-message generation performs at most
4 sends and ends with the truncated-response error ("truncated before
completing the JSON"), neither succeeding nor looping further. -/
theorem c1_all_length_truncated (parseStage : String → Except GenError CommitMessage)
    (oracle : Nat → SendOutcome) (initialMaxTokens : Nat)
    (h : ∀ k, k < max_attempts →
      ∃ c, oracle k = .ok c (some "length") ∧ rustTrim c ≠ "") :
    (openai_generate_commit_message parseStage oracle initialMaxTokens).1 =
        .error .truncatedNonEmpty ∧
      (openai_generate_commit_message parseStage oracle initialMaxTokens).2.length ≤ 4 := by
  have hmain := openai_commit_go_all_length parseStage oracle h max_attempts 0
    initialMaxTokens rfl (by decide)
  refine ⟨hmain.1, ?_⟩
  show (openai_commit_go parseStage oracle 0 initialMaxTokens).2.length ≤ 4
  rw [hmain.2]
  decide

theorem c1_all_length_truncated_witness :
    (openai_generate_commit_message (fun _ => .error .exhaustedAttempts)
        (fun _ => .ok "x" (some "length")) 1000).1 = .error .truncatedNonEmpty ∧
      (openai_generate_commit_message (fun _ => .error .exhaustedAttempts)
        (fun _ => .ok "x" (some "length")) 1000).2.length ≤ 4 :=
  c1_all_length_truncated (fun _ => .error .exhaustedAttempts)
    (fun _ => .ok "x" (some "length")) 1000
    (fun k _ => ⟨"x", rfl, by decide⟩)

/-! ## Lenient deserialization of `CommitMessage`

The derived serde deserializer of `struct CommitMessage`
(`src/ai/mod.rs` lines 15-69), embedded over a small JSON value type.
serde rules made explicit: an incoming key matches a field by its name or a
declared alias; `#[serde(default)]` supplies the default on absence; a
field with a custom `deserialize_with` and no `default` is REQUIRED; a
plain `Option` field treats both absence and `null` as `None`.  Only
`body` carries `deserialize_with = "deserialize_body"`; `body_en` is a
plain `Option<Vec<String>>`. -/

/-- A JSON value. -/
inductive Json where
  | null
  | bool (b : Bool)
  | num (n : Int)
  | str (s : String)
  | arr (items : List Json)
  | obj (fields : List (String × Json))

/-- First value bound to `key` in an object's field list. -/
def jsonLookup (fields : List (String × Json)) (key : String) : Option Json :=
  (fields.find? (fun p => p.1 == key)).map (fun p => p.2)

/-- serde `String`: only a JSON string. -/
def asString : Json → Except String String
  | .str s => .ok s
  | _ => .error "invalid type: expected a string"

/-- serde `Vec<String>`: a JSON array whose elements are all strings,
deserialized element by element in order. -/
def asStrings : List Json → Except String (List String)
  | [] => .ok []
  | v :: rest => do
    let s ← asString v
    let ss ← asStrings rest
    .ok (s :: ss)

/-- serde `Option<String>` (the `scope` field): `null` is `None`. -/
def optString : Json → Except String (Option String)
  | .null => .ok none
  | .str s => .ok (some s)
  | _ => .error "invalid type: expected a string or null"

/-- serde `Option<Vec<String>>` (the `body_en` field): `null` is `None`,
an array of strings is `Some`; anything else — a single string included —
is a type error. -/
def optStringArray : Json → Except String (Option (List String))
  | .null => .ok none
  | .arr items => (asStrings items).map some
  | _ => .error "invalid type: expected a sequence or null"

/-- `deserialize_body` (`src/ai/mod.rs` lines 31-49): the untagged `Body`
enum tries String, then Array, then Null. -/
def deserialize_body : Json → Except String (Option (List String))
  | .str s => .ok (some [s])
  | .arr items => (asStrings items).map some
  | .null => .ok none
  | _ => .error "data did not match any variant of untagged enum Body"

/-- `deserialize_breaking_change` (`src/ai/mod.rs` lines 51-69):
`false`/`null` to none, `true` to the fixed sentinel, a string verbatim. -/
def deserialize_breaking_change : Json → Except String (Option String)
  | .bool false => .ok none
  | .null => .ok none
  | .bool true => .ok (some "Breaking change")
  | .str s => .ok (some s)
  | _ => .error "data did not match any variant of untagged enum BreakingChange"

/-- The derived deserializer of `CommitMessage`: `commit_type` may arrive
under the alias `type`; `scope` is optional; `description` is required;
`description_en` defaults to the empty string; `body` goes through
`deserialize_body` and defaults to none; `body_en` is a plain optional
string array defaulting to none; `breaking_change` goes through
`deserialize_breaking_change` and, carrying `deserialize_with` without
`default`, is required. -/
def deserializeCommitMessage : Json → Except String CommitMessage
  | .obj fields => do
    let ct ←
      match jsonLookup fields "commit_type" <|> jsonLookup fields "type" with
      | some v => asString v
      | none => .error "missing field commit_type"
    let sc ←
      match jsonLookup fields "scope" with
      | some v => optString v
      | none => .ok none
    let d ←
      match jsonLookup fields "description" with
      | some v => asString v
      | none => .error "missing field description"
    let den ←
      match jsonLookup fields "description_en" with
      | some v => asString v
      | none => .ok ""
    let b ←
      match jsonLookup fields "body" with
      | some v => deserialize_body v
      | none => .ok none
    let ben ←
      match jsonLookup fields "body_en" with
      | some v => optStringArray v
      | none => .ok none
    let bc ←
      match jsonLookup fields "breaking_change" with
      | some v => deserialize_breaking_change v
      | none => .error "missing field breaking_change"
    .ok { commit_type := ct, scope := sc, description := d, description_en := den,
          body := b, body_en := ben, breaking_change := bc }
  | _ => .error "invalid type: expected a JSON object"

/-- A well-formed commit-message object whose `body`/`body_en` fields are
spliced in for testing (`none` means the field is absent). -/
def mkCommitJson (bodyField bodyEnField : Option Json) : Json :=
  .obj ([("type", .str "feat"), ("scope", .null), ("description", .str "d"),
         ("description_en", .str "de")] ++
        (match bodyField with | some v => [("body", v)] | none => []) ++
        (match bodyEnField with | some v => [("body_en", v)] | none => []) ++
        [("breaking_change", .null)])

/-- The structured value the fixture parses to, at the given body fields. -/
def mkCommitExpected (b ben : Option (List String)) : CommitMessage :=
  { commit_type := "feat", scope := none, description := "d",
    description_en := "de", body := b, body_en := ben, breaking_change := none }

theorem asStrings_map_str (xs : List String) :
    asStrings (xs.map Json.str) = .ok xs := by
  induction xs with
  | nil => rfl
  | cons a xs ih => simp [asStrings, asString, ih, Bind.bind, Except.bind]

/-- C8 counterexample: a JSON single string for `body_en` makes the whole
parse fail — `body_en` lacks the lenient `deserialize_body` coercion. -/
theorem c8_counterexample :
    deserializeCommitMessage (mkCommitJson none (some (.str "x"))) =
      .error "invalid type: expected a sequence or null" := by
  rfl

/-- C8 amended: `body` accepts a JSON single string (one-element sequence),
an array of strings, `null` and absence (no body); `body_en` accepts an
array of strings, `null` and absence, but NOT a single string — that fails
the whole parse (see the counterexample). -/
theorem c8_body_coercions (s : String) (xs : List String) :
    deserializeCommitMessage (mkCommitJson (some (.str s)) none) =
        .ok (mkCommitExpected (some [s]) none) ∧
      deserializeCommitMessage (mkCommitJson (some (.arr (xs.map .str))) none) =
        .ok (mkCommitExpected (some xs) none) ∧
      deserializeCommitMessage (mkCommitJson (some .null) none) =
        .ok (mkCommitExpected none none) ∧
      deserializeCommitMessage (mkCommitJson none none) =
        .ok (mkCommitExpected none none) ∧
      deserializeCommitMessage (mkCommitJson none (some (.arr (xs.map .str)))) =
        .ok (mkCommitExpected none (some xs)) ∧
      deserializeCommitMessage (mkCommitJson none (some .null)) =
        .ok (mkCommitExpected none none) := by
  refine ⟨rfl, ?_, rfl, rfl, ?_, rfl⟩
  · simp [deserializeCommitMessage, mkCommitJson, jsonLookup, deserialize_body,
      asStrings_map_str, mkCommitExpected, asString, optString,
      deserialize_breaking_change, Bind.bind, Except.bind, Except.map]
  · simp [deserializeCommitMessage, mkCommitJson, jsonLookup, optStringArray,
      asStrings_map_str, mkCommitExpected, asString, optString,
      deserialize_breaking_change, Bind.bind, Except.bind, Except.map]

theorem c8_body_coercions_witness :
    deserializeCommitMessage (mkCommitJson (some (.str "line")) none) =
        .ok (mkCommitExpected (some ["line"]) none) ∧
      deserializeCommitMessage (mkCommitJson none (some (.arr [.str "en"]))) =
        .ok (mkCommitExpected none (some ["en"])) :=
  ⟨(c8_body_coercions "line" ["en"]).1, (c8_body_coercions "line" ["en"]).2.2.2.2.1⟩
